import Mathlib

/-!
Shallow embedding of `qiita_adcal_crawler.py` (class `CalendarCrawler`).

The HTTP world is a function from URLs to responses; a parsed HTML page
(`BeautifulSoup` value) is modelled by a `Doc` record holding exactly the
pieces of the page that the crawler's CSS selectors extract.  Python
generators that interleave fetching with yielding are modelled by total
recursive functions that return the emitted prefix together with the
exception (if any) that ended the iteration; the unbounded pagination loop
takes a fuel argument.  The session's `request_count` is threaded
explicitly, and every function additionally returns the chronological list
of URLs it fetched (its fetch trace), so that counter and fetch-count
claims can be stated.
-/

namespace QiitaAdcal

/-- `CalendarCrawler.site` : the crawl target's base URL. -/
def site : String := "https://qiita.com/"

/-- Python `s.startswith(pre)`. -/
def startswith (s pre : String) : Bool :=
  pre.data.isPrefixOf s.data

/-- Python `pat in s` (substring containment) on character lists. -/
def hasSub (pat : List Char) : List Char → Bool
  | [] => pat.isEmpty
  | c :: cs => pat.isPrefixOf (c :: cs) || hasSub pat cs

/-- Python `s.strip()` : remove leading and trailing whitespace. -/
def pystrip (s : String) : String :=
  String.mk (((s.data.dropWhile Char.isWhitespace).reverse.dropWhile
      Char.isWhitespace).reverse)

/-- Decimal value accumulator for `str_to_int`. -/
def digitsToNat (acc : Nat) : List Char → Nat
  | [] => acc
  | c :: cs => digitsToNat (acc * 10 + (c.toNat - '0'.toNat)) cs

/-- Python `int(s)` in base 10: optional surrounding whitespace, optional
sign, then a nonempty run of digits; `none` models the `ValueError` raised
on any other shape.  (Underscore digit separators are not modelled.) -/
def str_to_int (s : String) : Option Int :=
  let cs := ((s.data.dropWhile Char.isWhitespace).reverse.dropWhile
      Char.isWhitespace).reverse
  match cs with
  | '-' :: ds =>
    if !ds.isEmpty && ds.all Char.isDigit
    then some (-(Int.ofNat (digitsToNat 0 ds))) else none
  | '+' :: ds =>
    if !ds.isEmpty && ds.all Char.isDigit
    then some (Int.ofNat (digitsToNat 0 ds)) else none
  | ds =>
    if !ds.isEmpty && ds.all Char.isDigit
    then some (Int.ofNat (digitsToNat 0 ds)) else none

/-- Python `Path(url).parts[-1]` for the URLs this crawler builds: the last
nonempty `/`-separated segment of the string (trailing slashes ignored,
interior duplicate slashes collapsed, exactly as `PurePath` normalises). -/
def lastPathSegment (url : String) : String :=
  String.mk (((url.data.reverse.dropWhile (fun c => c == '/')).takeWhile
      (fun c => c != '/')).reverse)

/-- Whether a URL reference carries a scheme (a `:` before any `/`). -/
def hasScheme (url : String) : Bool :=
  (url.data.takeWhile (fun c => c != '/')).contains ':'

/-- Python `urllib.parse.urljoin(site, url)` specialised to the fixed base
`"https://qiita.com/"` used by every call in the source: an empty
reference yields the base, a reference with a scheme is kept as is, a
protocol-relative reference gets the base's scheme, an absolute path is
joined to the base's host, and a relative path is resolved against the
base's root path. -/
def urljoin_site (url : String) : String :=
  if url = "" then site
  else if hasScheme url then url
  else if startswith url "//" then "https:" ++ url
  else if startswith url "/" then "https://qiita.com" ++ url
  else site ++ url

/-! ## Record types (the `typing.NamedTuple`s of the source) -/

/-- `Calendar` named tuple. -/
structure Calendar where
  year : Int
  calendar_id : String
  title : String
  url : String
  category : String
  participants_count : Int
  likes_count : Int
  subscribers_count : Int
deriving DecidableEq, Repr

/-- `Item` named tuple; the four optional fields are `None` in Python when
a day has no assigned entry. -/
structure Item where
  year : Int
  calendar_id : String
  date : Int
  user_name : Option String
  user_url : Option String
  title : Option String
  url : Option String
deriving DecidableEq, Repr

/-- `Liker` named tuple. -/
structure Liker where
  year : Int
  calendar_id : String
  date : Int
  user_name : String
  user_url : String
deriving DecidableEq, Repr

/-- The `(calendar_id, title, url)` triple yielded by `crawl_calendars`. -/
structure CalRef where
  calendar_id : String
  title : String
  url : String
deriving DecidableEq, Repr

/-! ## Document model

A `Doc` holds the results of the CSS selector queries the crawler runs on
a parsed page.  `Option` fields model `select_one` returning `None` /
a missing attribute. -/

/-- An `<a>` element: its text and its optional `href` attribute
(`a['href']` raises `KeyError` when the attribute is absent). -/
structure AnchorEl where
  text : String
  href : Option String
deriving DecidableEq, Repr

/-- A `.adventCalendarCalendar_comment` block: its text and the first
`<a>` inside it, if any. -/
structure CommentDiv where
  text : String
  link : Option AnchorEl
deriving DecidableEq, Repr

/-- One `.adventCalendarList tbody tr` row: its
`.adventCalendarList_calendarTitle > a` anchor, if present. -/
structure ListingRow where
  titleLink : Option AnchorEl
deriving DecidableEq, Repr

/-- One `.adventCalendarCalendar_day` cell of the detail-page grid. -/
structure DayCell where
  dateEl : Option String
  authorLink : Option AnchorEl
  comment : Option CommentDiv
deriving DecidableEq, Repr

/-- One `.GridList__user` entry of a liker page: its `.UserInfo__name`
text element and its first `<a>` (`user_el.a`). -/
structure UserEl where
  nameEl : Option String
  anchor : Option AnchorEl
deriving DecidableEq, Repr

/-- A parsed page: the selector results the crawler can ask of it. -/
structure Doc where
  nextLink : Option AnchorEl
  listRows : List ListingRow
  h1 : Option String
  infoLink : Option String
  stats : List String
  days : List DayCell
  users : List UserEl
deriving DecidableEq, Repr

/-- An HTTP response: status code, and the parse of its body. -/
structure HttpResponse where
  status_code : Nat
  content : Doc
deriving DecidableEq, Repr

/-- The deterministic network: what `requests.get` returns per URL. -/
abbrev World := String → HttpResponse

/-- Python exceptions the crawler can raise.  `http` is the source's
`HttpException(status_code)`; `attr` covers `AttributeError` (and the
analogous `TypeError` from subscripting `None`) when an expected element
is missing; `key` is `KeyError` on a missing attribute; `value` is
`ValueError` from `int()`; `index` is `IndexError` on a too-short
selector result list.  `fuel` is an artifact of the fuel-based embedding
of the unbounded pagination loop: it is never raised by the Python code,
and theorems assume enough fuel so that it does not occur. -/
inductive Err where
  | http (status : Nat)
  | attr
  | key
  | value
  | index
  | fuel
deriving DecidableEq, Repr

/-- Result of an effectful computation: the request counter after it, the
chronological list of URLs it fetched, and its value. -/
structure FetchOut (α : Type) where
  count : Nat
  trace : List String
  result : α
deriving DecidableEq, Repr

/-- `CalendarCrawler.__init__` sets `self.request_count = 0`. -/
def new_session_count : Nat := 0

/-! ## URL templates -/

/-- `CalendarCrawler.calendars_url` with `{year}` filled in. -/
def calendars_url (year : Int) : String :=
  "https://qiita.com/advent-calendar/" ++ toString year ++ "/calendars"

/-- `CalendarCrawler.categories_url` with `{year}`, `{category}` filled in. -/
def categories_url (year : Int) (category : String) : String :=
  "https://qiita.com/advent-calendar/" ++ toString year ++ "/categories/"
    ++ category

/-- `CalendarCrawler.calendar_url` with `{year}`, `{calendar_id}` filled in. -/
def calendar_url (year : Int) (calendar_id : String) : String :=
  "https://qiita.com/advent-calendar/" ++ toString year ++ "/" ++ calendar_id

/-- The start URL chosen by `crawl_calendars`: the category listing when a
category is given (Python truthiness: an empty string counts as absent),
the year listing otherwise. -/
def listing_url (year : Int) : Option String → String
  | some c => if c = "" then calendars_url year else categories_url year c
  | none => calendars_url year

/-! ## The crawler -/

/-- `CalendarCrawler.get_page`: increment the request counter, fetch, and
either raise `HttpException(status_code)` on a non-200 status or return
the parsed body.  (The politeness `time.sleep(WAIT_SEC)` has no
observable effect in this model.) -/
def get_page (w : World) (cnt : Nat) (url : String) :
    FetchOut (Except Err Doc) :=
  let cnt := cnt + 1
  let r := w url
  if r.status_code ≠ 200 then ⟨cnt, [url], .error (.http r.status_code)⟩
  else ⟨cnt, [url], .ok r.content⟩

/-- `CalendarCrawler.iterate_pagination`: fetch, yield the document, then
follow the `a[rel=next]` link (resolved against `site`) until none
remains.  Returns the yielded documents plus the exception, if any, that
ended the walk. -/
def iterate_pagination (w : World) :
    Nat → Nat → String → FetchOut (List Doc × Option Err)
  | 0, cnt, _ => ⟨cnt, [], ([], some .fuel)⟩
  | fuel + 1, cnt, url =>
    let g := get_page w cnt url
    match g.result with
    | .error e => ⟨g.count, g.trace, ([], some e)⟩
    | .ok d =>
      match d.nextLink with
      | none => ⟨g.count, g.trace, ([d], none)⟩
      | some a =>
        match a.href with
        | none => ⟨g.count, g.trace, ([d], some .key)⟩
        | some h =>
          let rest := iterate_pagination w fuel g.count (urljoin_site h)
          ⟨rest.count, g.trace ++ rest.trace,
            (d :: rest.result.1, rest.result.2)⟩

/-- `CalendarCrawler.is_qiita_item`: the item URL is present (and, by
Python truthiness, nonempty), literally starts with `site`, and does not
contain `/private/`. -/
def is_qiita_item : Option String → Bool
  | none => false
  | some url => startswith url site && !hasSub "/private/".data url.data

/-- The body of `crawl_calendars`'s row loop for one page: one `CalRef`
per `.adventCalendarList tbody tr` row, in document order; a row without
the title anchor raises `AttributeError`, an anchor without `href` raises
`KeyError`, either of which ends the generator after the rows already
yielded. -/
def parse_listing : List ListingRow → List CalRef × Option Err
  | [] => ([], none)
  | r :: rs =>
    match r.titleLink with
    | none => ([], some .attr)
    | some a =>
      match a.href with
      | none => ([], some .key)
      | some h =>
        let url := urljoin_site h
        let rest := parse_listing rs
        (⟨lastPathSegment url, a.text, url⟩ :: rest.1, rest.2)

/-- `CalendarCrawler.crawl_calendars` as executed: the pagination walk of
`iterate_pagination` interleaved with the per-page row loop (a row parse
error stops the walk before any further fetch, matching generator
laziness). -/
def crawl_calendars_pages (w : World) :
    Nat → Nat → String → FetchOut (List CalRef × Option Err)
  | 0, cnt, _ => ⟨cnt, [], ([], some .fuel)⟩
  | fuel + 1, cnt, url =>
    let g := get_page w cnt url
    match g.result with
    | .error e => ⟨g.count, g.trace, ([], some e)⟩
    | .ok d =>
      match parse_listing d.listRows with
      | (refs, some e) => ⟨g.count, g.trace, (refs, some e)⟩
      | (refs, none) =>
        match d.nextLink with
        | none => ⟨g.count, g.trace, (refs, none)⟩
        | some a =>
          match a.href with
          | none => ⟨g.count, g.trace, (refs, some .key)⟩
          | some h =>
            let rest := crawl_calendars_pages w fuel g.count (urljoin_site h)
            ⟨rest.count, g.trace ++ rest.trace,
              (refs ++ rest.result.1, rest.result.2)⟩

/-- `CalendarCrawler.crawl_calendars(year, category)`: choose the listing
URL, then walk it. -/
def crawl_calendars (w : World) (fuel cnt : Nat) (year : Int)
    (category : Option String) : FetchOut (List CalRef × Option Err) :=
  crawl_calendars_pages w fuel cnt (listing_url year category)

/-- The author block of `parse_calendar_items`: `None, None` without an
author anchor; otherwise the stripped link text and the href resolved
against `site` (a missing `href` raises `KeyError`). -/
def parse_author : Option AnchorEl → Except Err (Option String × Option String)
  | none => .ok (none, none)
  | some a =>
    match a.href with
    | none => .error .key
    | some h => .ok (some (pystrip a.text), some (urljoin_site h))

/-- The comment block of `parse_calendar_items`: `None, None` without the
block; with the block, its text as the title and, when the block contains
an `<a>`, that anchor's raw `href` (NOT resolved against `site`) as the
URL — `item_url = item_link['href'] if item_link else None`. -/
def parse_comment : Option CommentDiv → Except Err (Option String × Option String)
  | none => .ok (none, none)
  | some c =>
    match c.link with
    | none => .ok (some c.text, none)
    | some a =>
      match a.href with
      | none => .error .key
      | some h => .ok (some c.text, some h)

/-- One iteration of `parse_calendar_items`'s cell loop: parse the date
integer, the optional author pair, the optional comment pair. -/
def parse_day (year : Int) (calendar_id : String) (td : DayCell) :
    Except Err Item :=
  match td.dateEl with
  | none => .error .attr
  | some dtext =>
    match str_to_int dtext with
    | none => .error .value
    | some date =>
      match parse_author td.authorLink with
      | .error e => .error e
      | .ok (uname, uurl) =>
        match parse_comment td.comment with
        | .error e => .error e
        | .ok (ititle, iurl) =>
          .ok ⟨year, calendar_id, date, uname, uurl, ititle, iurl⟩

/-- `CalendarCrawler.parse_calendar_items`, as consumed by the eager
`list(...)` in `crawl_calendar`: one `Item` per `.adventCalendarCalendar_day`
cell in grid order, or the first parse exception. -/
def parse_calendar_items (year : Int) (calendar_id : String) :
    List DayCell → Except Err (List Item)
  | [] => .ok []
  | td :: tds =>
    match parse_day year calendar_id td with
    | .error e => .error e
    | .ok it =>
      match parse_calendar_items year calendar_id tds with
      | .error e => .error e
      | .ok rest => .ok (it :: rest)

/-- `int(soup.select('.adventCalendarJumbotron_stats')[i].text)`:
`IndexError` if there is no `i`-th stat element, `ValueError` if its text
is not an integer. -/
def read_stat (soup : Doc) (i : Nat) : Except Err Int :=
  match soup.stats[i]? with
  | none => .error .index
  | some t =>
    match str_to_int t with
    | none => .error .value
    | some n => .ok n

/-- `CalendarCrawler.crawl_calendar(year, calendar_id)`: one fetch of the
detail page, then title (`soup.h1`), category
(`.adventCalendarSection_info a`), the three positional jumbotron stats,
and the grid items. -/
def crawl_calendar (w : World) (cnt : Nat) (year : Int)
    (calendar_id : String) : FetchOut (Except Err (Calendar × List Item)) :=
  let url := calendar_url year calendar_id
  let g := get_page w cnt url
  ⟨g.count, g.trace,
    match g.result with
    | .error e => .error e
    | .ok soup =>
      match soup.h1 with
      | none => .error .attr
      | some title =>
        match soup.infoLink with
        | none => .error .attr
        | some category =>
          match read_stat soup 0 with
          | .error e => .error e
          | .ok participants_count =>
            match read_stat soup 1 with
            | .error e => .error e
            | .ok likes_count =>
              match read_stat soup 2 with
              | .error e => .error e
              | .ok subscribers_count =>
                match parse_calendar_items year calendar_id soup.days with
                | .error e => .error e
                | .ok items =>
                  .ok (⟨year, calendar_id, title, url, category,
                        participants_count, likes_count,
                        subscribers_count⟩, items)⟩

/-- The `.GridList__user` loop of `crawl_likers` on one liker page: one
`Liker` per user card, in document order; a card missing the name element
or the anchor (or the anchor missing `href`) raises, ending the loop after
the likers already yielded. -/
def parse_likers_page (year : Int) (calendar_id : String) (date : Int) :
    List UserEl → List Liker × Option Err
  | [] => ([], none)
  | u :: us =>
    match u.nameEl with
    | none => ([], some .attr)
    | some n =>
      match u.anchor with
      | none => ([], some .attr)
      | some a =>
        match a.href with
        | none => ([], some .key)
        | some h =>
          let rest := parse_likers_page year calendar_id date us
          (⟨year, calendar_id, date, n, urljoin_site h⟩ :: rest.1, rest.2)

/-- The nested pagination walk over one item's liker pages, interleaved
with the user-card loop exactly as the generators execute: a parse error
on a page stops the walk before any further fetch.  The `Option Err`
component is the exception (if any) that ended the walk — in
`crawl_likers` it is about to be swallowed by the bare `except`; it is
recorded here so that theorems can speak about it. -/
def crawl_likers_pages (w : World) (year : Int) (calendar_id : String)
    (date : Int) : Nat → Nat → String → FetchOut (List Liker × Option Err)
  | 0, cnt, _ => ⟨cnt, [], ([], some .fuel)⟩
  | fuel + 1, cnt, url =>
    let g := get_page w cnt url
    match g.result with
    | .error e => ⟨g.count, g.trace, ([], some e)⟩
    | .ok d =>
      match parse_likers_page year calendar_id date d.users with
      | (ls, some e) => ⟨g.count, g.trace, (ls, some e)⟩
      | (ls, none) =>
        match d.nextLink with
        | none => ⟨g.count, g.trace, (ls, none)⟩
        | some a =>
          match a.href with
          | none => ⟨g.count, g.trace, (ls, some .key)⟩
          | some h =>
            let rest := crawl_likers_pages w year calendar_id date fuel
              g.count (urljoin_site h)
            ⟨rest.count, g.trace ++ rest.trace,
              (ls ++ rest.result.1, rest.result.2)⟩

/-- The per-item body of `crawl_likers`'s loop: skip the item unless
`is_qiita_item(item.url)`, otherwise walk `item.url + '/likers'` inside
the `try`/`except`.  The `Option Err` is the swallowed exception, if any. -/
def crawl_likers_item (w : World) (fuel : Nat) (year : Int)
    (calendar_id : String) (cnt : Nat) (item : Item) :
    FetchOut (List Liker × Option Err) :=
  if is_qiita_item item.url then
    crawl_likers_pages w year calendar_id item.date fuel cnt
      ((item.url.getD "") ++ "/likers")
  else ⟨cnt, [], ([], none)⟩

/-- The item loop of `crawl_likers`: every item is processed, likers are
emitted in item order, and each item's caught exception (if any) is
recorded alongside it. -/
def crawl_likers_items (w : World) (fuel : Nat) (year : Int)
    (calendar_id : String) :
    Nat → List Item → FetchOut (List Liker × List (Item × Err))
  | cnt, [] => ⟨cnt, [], ([], [])⟩
  | cnt, it :: its =>
    let r := crawl_likers_item w fuel year calendar_id cnt it
    let rest := crawl_likers_items w fuel year calendar_id r.count its
    ⟨rest.count, r.trace ++ rest.trace,
      (r.result.1 ++ rest.result.1,
        (match r.result.2 with
          | none => []
          | some e => [(it, e)]) ++ rest.result.2)⟩

/-- `CalendarCrawler.crawl_likers(year, calendar_id)`: first
`crawl_calendar` (whose exceptions propagate, uncaught), then the
per-item fan-out.  On success the value is the emitted likers together
with the list of per-item exceptions that were caught and swallowed. -/
def crawl_likers (w : World) (fuel cnt : Nat) (year : Int)
    (calendar_id : String) :
    FetchOut (Except Err (List Liker × List (Item × Err))) :=
  let c := crawl_calendar w cnt year calendar_id
  match c.result with
  | .error e => ⟨c.count, c.trace, .error e⟩
  | .ok (_, items) =>
    let r := crawl_likers_items w fuel year calendar_id c.count items
    ⟨r.count, c.trace ++ r.trace, .ok r.result⟩

/-- The detail phase of the `crawl_calendars` CLI command: for each
enumerated reference, `crawl_calendar(year, ref.calendar_id)`; the first
exception propagates and aborts the loop. -/
def crawl_details (w : World) (year : Int) :
    Nat → List CalRef → FetchOut (Except Err (List (Calendar × List Item)))
  | cnt, [] => ⟨cnt, [], .ok []⟩
  | cnt, r :: rs =>
    let c := crawl_calendar w cnt year r.calendar_id
    match c.result with
    | .error e => ⟨c.count, c.trace, .error e⟩
    | .ok pr =>
      let rest := crawl_details w year c.count rs
      ⟨rest.count, c.trace ++ rest.trace, rest.result.map (pr :: ·)⟩

/-- The spec's `crawlCalendars(year, category?)` operation, i.e. the
composition the `crawl_calendars` CLI command performs with the core:
enumerate the calendar references, then crawl each reference's single
detail page. -/
def crawl_calendars_op (w : World) (fuel cnt : Nat) (year : Int)
    (category : Option String) :
    FetchOut (Except Err (List (Calendar × List Item))) :=
  let e := crawl_calendars w fuel cnt year category
  match e.result.2 with
  | some err => ⟨e.count, e.trace, .error err⟩
  | none =>
    let d := crawl_details w year e.count e.result.1
    ⟨d.count, e.trace ++ d.trace, d.result⟩

/-! ## Specification vocabulary -/

/-- A chain of `K` pages as the spec describes it, starting at `url`: each
entry pairs the URL a page lives at with its document; every page answers
with status 200, pages `1..K-1` carry an `a[rel=next]` link whose href,
resolved against the site base URL, is the next entry's URL, and the last
page carries none. -/
def chain (w : World) : String → List (String × Doc) → Bool
  | _, [] => false
  | url, [(u, d)] =>
    decide (u = url) && decide (w url = ⟨200, d⟩) &&
      decide (d.nextLink = none)
  | url, (u, d) :: q :: qs =>
    decide (u = url) && decide (w url = ⟨200, d⟩) &&
      (match d.nextLink with
       | none => false
       | some a =>
         match a.href with
         | none => false
         | some h => chain w (urljoin_site h) (q :: qs))

/-- The per-cell relation the Detail Parser claim states between a
produced `Item` and its source day cell: author fields are non-null
exactly when the cell has an author link (name whitespace-trimmed, the
two fields null together otherwise), the title is non-null exactly when
the comment block is present, and the item URL is non-null exactly when
the comment block contains a link (text but no link gives a non-null
title with a null URL). -/
def ItemMatchesCell (it : Item) (td : DayCell) : Prop :=
  (it.user_name.isSome ↔ td.authorLink.isSome) ∧
  (it.user_url.isSome ↔ td.authorLink.isSome) ∧
  (∀ a, td.authorLink = some a → it.user_name = some (pystrip a.text)) ∧
  (it.title.isSome ↔ td.comment.isSome) ∧
  (it.url.isSome ↔ ∃ c, td.comment = some c ∧ c.link.isSome) ∧
  (∀ c, td.comment = some c → c.link = none →
    it.title = some c.text ∧ it.url = none)

/-! ## Concrete fixtures

Small closed worlds used by witnesses and counterexamples. -/

/-- A page with no selectable content. -/
def emptyDoc : Doc := ⟨none, [], none, none, [], [], []⟩

/-- Detail page of calendar `c` of 2023: two day items, both linking to
own-site article URLs. -/
def w1_detail : Doc :=
  ⟨none, [], some "Test Calendar", some "Programming", ["1", "2", "3"],
    [⟨some "1", none, some ⟨"A", some ⟨"a1", some "https://qiita.com/items/x"⟩⟩⟩,
     ⟨some "2", none, some ⟨"B", some ⟨"a2", some "https://qiita.com/items/y"⟩⟩⟩],
    []⟩

/-- First liker page of item `x`: one liker, and a next link to a page
that will answer 500. -/
def w1_likers_x : Doc :=
  ⟨some ⟨"next", some "/page2"⟩, [], none, none, [], [],
    [⟨some "u1", some ⟨"u1", some "/u1"⟩⟩]⟩

/-- The single liker page of item `y`: one liker, no next link. -/
def w1_likers_y : Doc :=
  ⟨none, [], none, none, [], [], [⟨some "u2", some ⟨"u2", some "/u2"⟩⟩]⟩

/-- World for the liker fan-out scenarios: item `x`'s liker walk fails
with HTTP 500 on its second page, item `y`'s walk succeeds. -/
def w1 : World := fun url =>
  if url = "https://qiita.com/advent-calendar/2023/c" then ⟨200, w1_detail⟩
  else if url = "https://qiita.com/items/x/likers" then ⟨200, w1_likers_x⟩
  else if url = "https://qiita.com/items/y/likers" then ⟨200, w1_likers_y⟩
  else if url = "https://qiita.com/page2" then ⟨500, emptyDoc⟩
  else ⟨404, emptyDoc⟩

/-- A single-page year listing with one calendar row. -/
def w2_listing : Doc :=
  ⟨none, [⟨some ⟨"Cal One", some "/advent-calendar/2023/c1"⟩⟩], none, none,
    [], [], []⟩

/-- Detail page of calendar `c1` of 2023, with an empty grid. -/
def w2_detail : Doc :=
  ⟨none, [], some "Cal One", some "Programming", ["10", "20", "30"], [], []⟩

/-- World for the calendar-enumeration scenarios. -/
def w2 : World := fun url =>
  if url = "https://qiita.com/advent-calendar/2023/calendars" then
    ⟨200, w2_listing⟩
  else if url = "https://qiita.com/advent-calendar/2023/c1" then
    ⟨200, w2_detail⟩
  else ⟨404, emptyDoc⟩

/-- First page of a two-page pagination chain. -/
def w3_p1 : Doc := ⟨some ⟨"next", some "/p2"⟩, [], none, none, [], [], []⟩

/-- World holding a two-page chain `p1 → p2`. -/
def w3 : World := fun url =>
  if url = "https://qiita.com/p1" then ⟨200, w3_p1⟩
  else if url = "https://qiita.com/p2" then ⟨200, emptyDoc⟩
  else ⟨404, emptyDoc⟩

/-- Three day cells: author plus linked comment, comment without link,
and a bare cell. -/
def c6_cells : List DayCell :=
  [⟨some "1", some ⟨" alice ", some "/alice"⟩,
      some ⟨"T1", some ⟨"t", some "/items/1"⟩⟩⟩,
   ⟨some "2", none, some ⟨"T2", none⟩⟩,
   ⟨some "3", none, none⟩]

/-- The `Item`s `parse_calendar_items` produces from `c6_cells`. -/
def c6_items : List Item :=
  [⟨2023, "c1", 1, some "alice", some "https://qiita.com/alice",
      some "T1", some "/items/1"⟩,
   ⟨2023, "c1", 2, none, none, some "T2", none⟩,
   ⟨2023, "c1", 3, none, none, none, none⟩]

/-- A day cell whose comment link carries a relative href. -/
def c10_cell : DayCell :=
  ⟨some "1", some ⟨"bob", some "/bob"⟩,
    some ⟨"T", some ⟨"t", some "/items/rel"⟩⟩⟩

/-- The `Item` parsed from `c10_cell`: the author URL is resolved, the
item URL keeps the raw relative href. -/
def c10_item : Item :=
  ⟨2023, "c", 1, some "bob", some "https://qiita.com/bob",
    some "T", some "/items/rel"⟩

/-! ## Basic lemmas about the Page Fetcher -/

theorem get_page_ok (w : World) (cnt : Nat) (url : String)
    (h : (w url).status_code = 200) :
    get_page w cnt url = ⟨cnt + 1, [url], .ok (w url).content⟩ := by
  simp [get_page, h]

theorem get_page_err (w : World) (cnt : Nat) (url : String)
    (h : (w url).status_code ≠ 200) :
    get_page w cnt url = ⟨cnt + 1, [url], .error (.http (w url).status_code)⟩ := by
  simp [get_page, h]

/-! ## Counter and trace lemmas: each operation's final count is its
initial count plus the number of fetches it performed. -/

theorem iterate_pagination_count (w : World) :
    ∀ fuel cnt url,
      (iterate_pagination w fuel cnt url).count
        = cnt + (iterate_pagination w fuel cnt url).trace.length := by
  intro fuel
  induction fuel with
  | zero => intro cnt url; simp [iterate_pagination]
  | succ f ih =>
    intro cnt url
    rcases eq_or_ne (w url).status_code 200 with h | h
    · simp only [iterate_pagination, get_page_ok w cnt url h]
      cases hn : (w url).content.nextLink with
      | none => simp
      | some a =>
        cases hh : a.href with
        | none => simp [hh]
        | some nh =>
          simp only [hh, List.append_eq, List.length_append, List.length_cons,
            List.length_nil]
          rw [ih]
          omega
    · simp [iterate_pagination, get_page_err w cnt url h]

theorem crawl_calendars_pages_count (w : World) :
    ∀ fuel cnt url,
      (crawl_calendars_pages w fuel cnt url).count
        = cnt + (crawl_calendars_pages w fuel cnt url).trace.length := by
  intro fuel
  induction fuel with
  | zero => intro cnt url; simp [crawl_calendars_pages]
  | succ f ih =>
    intro cnt url
    rcases eq_or_ne (w url).status_code 200 with h | h
    · simp only [crawl_calendars_pages, get_page_ok w cnt url h]
      rcases hpl : parse_listing (w url).content.listRows with ⟨refs, e⟩
      cases e with
      | some e => simp
      | none =>
        cases hn : (w url).content.nextLink with
        | none => simp
        | some a =>
          cases hh : a.href with
          | none => simp [hh]
          | some nh =>
            simp only [hh, List.append_eq, List.length_append, List.length_cons,
              List.length_nil]
            rw [ih]
            omega
    · simp [crawl_calendars_pages, get_page_err w cnt url h]

theorem crawl_calendar_count (w : World) (cnt : Nat) (year : Int)
    (cid : String) :
    (crawl_calendar w cnt year cid).count = cnt + 1 ∧
    (crawl_calendar w cnt year cid).trace = [calendar_url year cid] ∧
    (crawl_calendar w cnt year cid).result
      = (crawl_calendar w 0 year cid).result := by
  rcases eq_or_ne (w (calendar_url year cid)).status_code 200 with h | h
  · simp [crawl_calendar, get_page_ok _ _ _ h]
  · simp [crawl_calendar, get_page_err _ _ _ h]

theorem crawl_likers_pages_count (w : World) (year : Int) (cid : String)
    (date : Int) :
    ∀ fuel cnt url,
      (crawl_likers_pages w year cid date fuel cnt url).count
        = cnt + (crawl_likers_pages w year cid date fuel cnt url).trace.length := by
  intro fuel
  induction fuel with
  | zero => intro cnt url; simp [crawl_likers_pages]
  | succ f ih =>
    intro cnt url
    rcases eq_or_ne (w url).status_code 200 with h | h
    · simp only [crawl_likers_pages, get_page_ok w cnt url h]
      rcases hpl : parse_likers_page year cid date (w url).content.users
        with ⟨ls, e⟩
      cases e with
      | some e => simp
      | none =>
        cases hn : (w url).content.nextLink with
        | none => simp
        | some a =>
          cases hh : a.href with
          | none => simp [hh]
          | some nh =>
            simp only [hh, List.append_eq, List.length_append, List.length_cons,
              List.length_nil]
            rw [ih]
            omega
    · simp [crawl_likers_pages, get_page_err w cnt url h]

theorem crawl_likers_item_count (w : World) (fuel : Nat) (year : Int)
    (cid : String) (cnt : Nat) (it : Item) :
    (crawl_likers_item w fuel year cid cnt it).count
      = cnt + (crawl_likers_item w fuel year cid cnt it).trace.length := by
  unfold crawl_likers_item
  split
  · exact crawl_likers_pages_count w year cid it.date fuel cnt _
  · simp

theorem crawl_likers_items_count (w : World) (fuel : Nat) (year : Int)
    (cid : String) :
    ∀ items cnt,
      (crawl_likers_items w fuel year cid cnt items).count
        = cnt + (crawl_likers_items w fuel year cid cnt items).trace.length := by
  intro items
  induction items with
  | nil => intro cnt; simp [crawl_likers_items]
  | cons it its ih =>
    intro cnt
    simp only [crawl_likers_items, List.length_append]
    rw [ih, crawl_likers_item_count]
    omega

theorem crawl_likers_count (w : World) (fuel cnt : Nat) (year : Int)
    (cid : String) :
    (crawl_likers w fuel cnt year cid).count
      = cnt + (crawl_likers w fuel cnt year cid).trace.length := by
  simp only [crawl_likers]
  rcases hr : (crawl_calendar w cnt year cid).result with e | pr
  · simpa [hr] using (crawl_calendar_count w cnt year cid).1.trans
      (by rw [(crawl_calendar_count w cnt year cid).2.1]; rfl)
  · obtain ⟨cal, items⟩ := pr
    simp only [hr, List.length_append]
    rw [crawl_likers_items_count, (crawl_calendar_count w cnt year cid).1,
      (crawl_calendar_count w cnt year cid).2.1]
    simp
    omega

theorem crawl_details_count (w : World) (year : Int) :
    ∀ refs cnt,
      (crawl_details w year cnt refs).count
        = cnt + (crawl_details w year cnt refs).trace.length := by
  intro refs
  induction refs with
  | nil => intro cnt; simp [crawl_details]
  | cons r rs ih =>
    intro cnt
    simp only [crawl_details]
    rcases hr : (crawl_calendar w cnt year r.calendar_id).result with e | pr
    · simpa using (crawl_calendar_count w cnt year r.calendar_id).1.trans
        (by rw [(crawl_calendar_count w cnt year r.calendar_id).2.1]; rfl)
    · simp only [List.length_append]
      rw [ih, (crawl_calendar_count w cnt year r.calendar_id).1,
        (crawl_calendar_count w cnt year r.calendar_id).2.1]
      simp
      omega

theorem crawl_calendars_op_count (w : World) (fuel cnt : Nat) (year : Int)
    (cat : Option String) :
    (crawl_calendars_op w fuel cnt year cat).count
      = cnt + (crawl_calendars_op w fuel cnt year cat).trace.length := by
  simp only [crawl_calendars_op]
  rcases he : (crawl_calendars w fuel cnt year cat).result.2 with _ | e
  · simp only [List.length_append]
    rw [crawl_details_count]
    have := crawl_calendars_pages_count w fuel cnt (listing_url year cat)
    simp only [crawl_calendars] at *
    omega
  · simpa using crawl_calendars_pages_count w fuel cnt (listing_url year cat)

/-- Claim C7. The request counter starts at zero in a fresh session, each
Page Fetcher call increments it by exactly one (and fetches exactly one
URL), and after any operation — including `crawl_likers` with its nested
liker pagination, and the full `crawlCalendars` composition — the counter
equals its initial value plus the number of Page Fetcher invocations the
operation performed (its fetch trace length); in particular it only ever
grows, so nothing short of a new session resets it. -/
theorem request_counter_spec :
    new_session_count = 0 ∧
    (∀ (w : World) (cnt : Nat) (url : String),
      (get_page w cnt url).count = cnt + 1 ∧
      (get_page w cnt url).trace = [url]) ∧
    (∀ (w : World) (fuel cnt : Nat) (url : String),
      (iterate_pagination w fuel cnt url).count
        = cnt + (iterate_pagination w fuel cnt url).trace.length) ∧
    (∀ (w : World) (fuel cnt : Nat) (url : String),
      (crawl_calendars_pages w fuel cnt url).count
        = cnt + (crawl_calendars_pages w fuel cnt url).trace.length) ∧
    (∀ (w : World) (cnt : Nat) (year : Int) (cid : String),
      (crawl_calendar w cnt year cid).count
        = cnt + (crawl_calendar w cnt year cid).trace.length) ∧
    (∀ (w : World) (fuel cnt : Nat) (year : Int) (cid : String),
      (crawl_likers w fuel cnt year cid).count
        = cnt + (crawl_likers w fuel cnt year cid).trace.length) ∧
    (∀ (w : World) (fuel cnt : Nat) (year : Int) (cat : Option String),
      (crawl_calendars_op w fuel cnt year cat).count
        = cnt + (crawl_calendars_op w fuel cnt year cat).trace.length) := by
  refine ⟨rfl, ?_, ?_, ?_, ?_, ?_, ?_⟩
  · intro w cnt url
    rcases eq_or_ne (w url).status_code 200 with h | h
    · simp [get_page_ok w cnt url h]
    · simp [get_page_err w cnt url h]
  · exact fun w fuel cnt url => iterate_pagination_count w fuel cnt url
  · exact fun w fuel cnt url => crawl_calendars_pages_count w fuel cnt url
  · intro w cnt year cid
    rw [(crawl_calendar_count w cnt year cid).1,
      (crawl_calendar_count w cnt year cid).2.1]
    rfl
  · exact fun w fuel cnt year cid => crawl_likers_count w fuel cnt year cid
  · exact fun w fuel cnt year cat => crawl_calendars_op_count w fuel cnt year cat

/-! ## Pagination Walker -/

/-- Claim C3. For every chain of `K` pages in which pages `1..K-1` carry a
rel-next link and page `K` does not, `iterate_pagination` on the chain's
start URL yields exactly the `K` documents in order, fetches exactly the
`K` chain URLs (each next link resolved against the site base URL, as
`chain` demands), raises nothing, and adds exactly `K` to the request
counter. -/
theorem iterate_pagination_chain_spec (w : World) :
    ∀ (ps : List (String × Doc)) (fuel cnt : Nat) (url : String),
      chain w url ps = true → ps.length ≤ fuel →
      iterate_pagination w fuel cnt url
        = ⟨cnt + ps.length, ps.map Prod.fst, (ps.map Prod.snd, none)⟩ := by
  intro ps
  induction ps with
  | nil => intro fuel cnt url hc _; simp [chain] at hc
  | cons p rest ih =>
    intro fuel cnt url hc hlen
    obtain ⟨u, d⟩ := p
    cases fuel with
    | zero => simp at hlen
    | succ f =>
      cases rest with
      | nil =>
        simp only [chain, Bool.and_eq_true, decide_eq_true_eq] at hc
        obtain ⟨⟨hu, hw⟩, hnext⟩ := hc
        subst hu
        have h200 : (w u).status_code = 200 := by rw [hw]
        have hcont : (w u).content = d := by rw [hw]
        simp [iterate_pagination, get_page_ok w cnt u h200, hcont, hnext]
      | cons q qs =>
        simp only [chain, Bool.and_eq_true, decide_eq_true_eq] at hc
        obtain ⟨⟨hu, hw⟩, hrest⟩ := hc
        subst hu
        have h200 : (w u).status_code = 200 := by rw [hw]
        have hcont : (w u).content = d := by rw [hw]
        cases hn : d.nextLink with
        | none => simp only [hn] at hrest; exact absurd hrest (by simp)
        | some a =>
          simp only [hn] at hrest
          cases hh : a.href with
          | none => simp only [hh] at hrest; exact absurd hrest (by simp)
          | some nh =>
            simp only [hh] at hrest
            have hrec := ih f (cnt + 1) (urljoin_site nh) hrest
              (by simp at hlen ⊢; omega)
            simp only [iterate_pagination, get_page_ok w cnt u h200, hcont,
              hn, hh]
            rw [hrec]
            simp only [FetchOut.mk.injEq, List.map_cons, List.length_cons,
              List.singleton_append, Prod.mk.injEq, and_true, true_and]
            omega

/-- Witness for C3: a concrete two-page chain is walked in two fetches. -/
theorem iterate_pagination_chain_spec_witness :
    chain w3 "https://qiita.com/p1"
        [("https://qiita.com/p1", w3_p1), ("https://qiita.com/p2", emptyDoc)]
      = true ∧
    ([("https://qiita.com/p1", w3_p1), ("https://qiita.com/p2", emptyDoc)] :
        List (String × Doc)).length ≤ 5 ∧
    iterate_pagination w3 5 0 "https://qiita.com/p1"
      = ⟨0 + ([("https://qiita.com/p1", w3_p1),
              ("https://qiita.com/p2", emptyDoc)] :
              List (String × Doc)).length,
          [("https://qiita.com/p1", w3_p1),
            ("https://qiita.com/p2", emptyDoc)].map Prod.fst,
          ([("https://qiita.com/p1", w3_p1),
            ("https://qiita.com/p2", emptyDoc)].map Prod.snd, none)⟩ :=
  ⟨by decide, by decide,
    iterate_pagination_chain_spec w3
      [("https://qiita.com/p1", w3_p1), ("https://qiita.com/p2", emptyDoc)]
      5 0 "https://qiita.com/p1" (by decide) (by decide)⟩

/-! ## HTTP errors -/

/-- Claim C4, counterexample to the claim as stated: in `w1` the fetch of
`page2` (issued by the `crawl_likers` operation) answers 500, yet the same
operation afterwards fetches item `y`'s liker page — a non-OK fetch on the
liker path does not stop the operation that issued it. -/
theorem http_error_further_fetches_counterexample :
    (w1 "https://qiita.com/page2").status_code = 500 ∧
    (crawl_likers w1 10 0 2023 "c").trace =
      ["https://qiita.com/advent-calendar/2023/c",
       "https://qiita.com/items/x/likers",
       "https://qiita.com/page2",
       "https://qiita.com/items/y/likers"] :=
  ⟨by decide, by decide⟩

/-- Claim C4 as amended: every non-OK fetch makes the Page Fetcher raise
`HttpException` carrying exactly the response's status code after exactly
one fetch (no retry); on the primary paths (pagination walk, listing
enumeration, detail crawl) the raising fetch is the operation's last —
the output shows exactly the one failing URL fetched; on the per-item
liker path the exception is caught at the fan-out boundary and the
operation continues with the remaining items. -/
theorem http_error_propagation :
    (∀ (w : World) (cnt : Nat) (url : String), (w url).status_code ≠ 200 →
      get_page w cnt url
        = ⟨cnt + 1, [url], .error (.http (w url).status_code)⟩) ∧
    (∀ (w : World) (fuel cnt : Nat) (url : String),
      (w url).status_code ≠ 200 →
      iterate_pagination w (fuel + 1) cnt url
        = ⟨cnt + 1, [url], ([], some (.http (w url).status_code))⟩) ∧
    (∀ (w : World) (fuel cnt : Nat) (url : String),
      (w url).status_code ≠ 200 →
      crawl_calendars_pages w (fuel + 1) cnt url
        = ⟨cnt + 1, [url], ([], some (.http (w url).status_code))⟩) ∧
    (∀ (w : World) (cnt : Nat) (year : Int) (cid : String),
      (w (calendar_url year cid)).status_code ≠ 200 →
      crawl_calendar w cnt year cid
        = ⟨cnt + 1, [calendar_url year cid],
            .error (.http (w (calendar_url year cid)).status_code)⟩) ∧
    (∀ (w : World) (year : Int) (cid : String) (date : Int) (fuel cnt : Nat)
        (url : String), (w url).status_code ≠ 200 →
      crawl_likers_pages w year cid date (fuel + 1) cnt url
        = ⟨cnt + 1, [url], ([], some (.http (w url).status_code))⟩) ∧
    (∀ (w : World) (fuel : Nat) (year : Int) (cid : String) (cnt : Nat)
        (it : Item) (its : List Item),
      (crawl_likers_items w fuel year cid cnt (it :: its)).result.1
        = (crawl_likers_item w fuel year cid cnt it).result.1
          ++ (crawl_likers_items w fuel year cid
                (crawl_likers_item w fuel year cid cnt it).count its).result.1) := by
  refine ⟨?_, ?_, ?_, ?_, ?_, ?_⟩
  · intro w cnt url h; exact get_page_err w cnt url h
  · intro w fuel cnt url h
    simp [iterate_pagination, get_page_err w cnt url h]
  · intro w fuel cnt url h
    simp [crawl_calendars_pages, get_page_err w cnt url h]
  · intro w cnt year cid h
    simp [crawl_calendar, get_page_err _ _ _ h]
  · intro w year cid date fuel cnt url h
    simp [crawl_likers_pages, get_page_err w cnt url h]
  · intro w fuel year cid cnt it its; rfl

/-- Witness for C4's amended theorem, at a URL `w3` answers with 404. -/
theorem http_error_propagation_witness :
    (w3 "https://qiita.com/missing").status_code ≠ 200 ∧
    get_page w3 0 "https://qiita.com/missing"
      = ⟨0 + 1, ["https://qiita.com/missing"],
          .error (.http (w3 "https://qiita.com/missing").status_code)⟩ :=
  ⟨by decide,
    http_error_propagation.1 w3 0 "https://qiita.com/missing" (by decide)⟩

/-! ## Liker fan-out skipping -/

theorem crawl_likers_pages_trace_head (w : World) (year : Int)
    (cid : String) (date : Int) (f cnt : Nat) (url : String) :
    (crawl_likers_pages w year cid date (f + 1) cnt url).trace.head?
      = some url := by
  rcases eq_or_ne (w url).status_code 200 with h | h
  · simp only [crawl_likers_pages, get_page_ok w cnt url h]
    rcases hpl : parse_likers_page year cid date (w url).content.users
      with ⟨ls, e⟩
    cases e with
    | some e => simp
    | none =>
      cases hn : (w url).content.nextLink with
      | none => simp
      | some a =>
        cases hh : a.href with
        | none => simp [hh]
        | some nh => simp [hh]
  · simp [crawl_likers_pages, get_page_err w cnt url h]

/-- Claim C5. An item whose URL is absent, or empty, or not literally on
the site's host, or containing the private path marker, is not a Qiita
item; the fan-out body for a non-Qiita item performs zero fetches and
emits zero likers (and records no exception); for a Qiita item the body is
exactly the nested pagination walk over `item.url + "/likers"`, whose very
first fetch (given any fuel) is that likers URL. -/
theorem liker_fanout_skip :
    is_qiita_item none = false ∧
    is_qiita_item (some "") = false ∧
    (∀ u : String, startswith u site = false →
      is_qiita_item (some u) = false) ∧
    (∀ u : String, hasSub "/private/".data u.data = true →
      is_qiita_item (some u) = false) ∧
    (∀ (w : World) (fuel : Nat) (year : Int) (cid : String) (cnt : Nat)
        (it : Item),
      (is_qiita_item it.url = false →
        crawl_likers_item w fuel year cid cnt it = ⟨cnt, [], ([], none)⟩) ∧
      (is_qiita_item it.url = true →
        crawl_likers_item w fuel year cid cnt it
          = crawl_likers_pages w year cid it.date fuel cnt
              ((it.url.getD "") ++ "/likers"))) ∧
    (∀ (w : World) (f : Nat) (year : Int) (cid : String) (cnt : Nat)
        (it : Item), is_qiita_item it.url = true →
      (crawl_likers_item w (f + 1) year cid cnt it).trace.head?
        = some ((it.url.getD "") ++ "/likers")) := by
  refine ⟨rfl, by decide, ?_, ?_, ?_, ?_⟩
  · intro u h; simp [is_qiita_item, h]
  · intro u h; simp [is_qiita_item, h]
  · intro w fuel year cid cnt it
    exact ⟨fun h => by simp [crawl_likers_item, h],
      fun h => by simp [crawl_likers_item, h]⟩
  · intro w f year cid cnt it h
    simp only [crawl_likers_item, h, if_true]
    exact crawl_likers_pages_trace_head w year cid it.date f cnt _

/-- Witness for C5: a foreign-host item is skipped with zero fetches. -/
theorem liker_fanout_skip_witness :
    is_qiita_item (Item.url ⟨2023, "c", 1, none, none, none,
        some "http://example.com/a"⟩) = false ∧
    crawl_likers_item w1 5 2023 "c" 0
        ⟨2023, "c", 1, none, none, none, some "http://example.com/a"⟩
      = ⟨0, [], ([], none)⟩ :=
  ⟨by decide,
    (liker_fanout_skip.2.2.2.2.1 w1 5 2023 "c" 0
        ⟨2023, "c", 1, none, none, none, some "http://example.com/a"⟩).1
      (by decide)⟩

/-! ## Detail Parser inversion -/

theorem parse_author_ok (o : Option AnchorEl)
    (p : Option String × Option String) (h : parse_author o = .ok p) :
    (o = none → p = (none, none)) ∧
    (∀ a, o = some a → ∃ hr, a.href = some hr ∧
      p = (some (pystrip a.text), some (urljoin_site hr))) := by
  cases o with
  | none =>
    simp only [parse_author] at h
    injection h with h2
    subst h2
    exact ⟨fun _ => rfl, fun a ha => Option.noConfusion ha⟩
  | some a =>
    cases hh : a.href with
    | none => simp only [parse_author, hh] at h; exact Except.noConfusion h
    | some hr =>
      simp only [parse_author, hh] at h
      injection h with h2
      subst h2
      refine ⟨fun hno => Option.noConfusion hno, fun a2 ha2 => ?_⟩
      injection ha2 with he
      subst he
      exact ⟨hr, hh, rfl⟩

theorem parse_comment_ok (o : Option CommentDiv)
    (p : Option String × Option String) (h : parse_comment o = .ok p) :
    (o = none → p = (none, none)) ∧
    (∀ c, o = some c → p.1 = some c.text ∧
      (c.link = none → p.2 = none) ∧
      (∀ a, c.link = some a → ∃ hr, a.href = some hr ∧ p.2 = some hr)) := by
  cases o with
  | none =>
    simp only [parse_comment] at h
    injection h with h2
    subst h2
    exact ⟨fun _ => rfl, fun c hc => Option.noConfusion hc⟩
  | some c =>
    cases hl : c.link with
    | none =>
      simp only [parse_comment, hl] at h
      injection h with h2
      subst h2
      refine ⟨fun hno => Option.noConfusion hno, fun c2 hc2 => ?_⟩
      injection hc2 with he
      subst he
      exact ⟨rfl, fun _ => rfl, fun a ha => by rw [hl] at ha; cases ha⟩
    | some a =>
      cases hh : a.href with
      | none => simp only [parse_comment, hl, hh] at h; exact Except.noConfusion h
      | some hr =>
        simp only [parse_comment, hl, hh] at h
        injection h with h2
        subst h2
        refine ⟨fun hno => Option.noConfusion hno, fun c2 hc2 => ?_⟩
        injection hc2 with he
        subst he
        refine ⟨rfl, ?_, ?_⟩
        · intro hno
          rw [hl] at hno
          exact Option.noConfusion hno
        · intro a2 ha2
          rw [hl] at ha2
          injection ha2 with he2
          subst he2
          exact ⟨hr, hh, rfl⟩

/-- Inversion of one successful day-cell parse: how each field of the
produced `Item` relates to the cell. -/
theorem parse_day_ok (year : Int) (cid : String) (td : DayCell) (it : Item)
    (h : parse_day year cid td = .ok it) :
    it.year = year ∧ it.calendar_id = cid ∧
    (td.authorLink = none → it.user_name = none ∧ it.user_url = none) ∧
    (∀ a, td.authorLink = some a → ∃ hr, a.href = some hr ∧
      it.user_name = some (pystrip a.text) ∧
      it.user_url = some (urljoin_site hr)) ∧
    (td.comment = none → it.title = none ∧ it.url = none) ∧
    (∀ c, td.comment = some c → it.title = some c.text ∧
      (c.link = none → it.url = none) ∧
      (∀ a, c.link = some a → ∃ hr, a.href = some hr ∧ it.url = some hr)) := by
  cases hdt : td.dateEl with
  | none => simp only [parse_day, hdt] at h; exact Except.noConfusion h
  | some dtext =>
    cases hdi : str_to_int dtext with
    | none => simp only [parse_day, hdt, hdi] at h; exact Except.noConfusion h
    | some date =>
      cases hpa : parse_author td.authorLink with
      | error e =>
        simp only [parse_day, hdt, hdi, hpa] at h
        exact Except.noConfusion h
      | ok pa =>
        obtain ⟨uname, uurl⟩ := pa
        cases hpc : parse_comment td.comment with
        | error e =>
          simp only [parse_day, hdt, hdi, hpa, hpc] at h
          exact Except.noConfusion h
        | ok pc =>
          obtain ⟨ititle, iurl⟩ := pc
          simp only [parse_day, hdt, hdi, hpa, hpc] at h
          injection h with h2
          subst h2
          obtain ⟨ha_none, ha_some⟩ := parse_author_ok _ _ hpa
          obtain ⟨hc_none, hc_some⟩ := parse_comment_ok _ _ hpc
          refine ⟨rfl, rfl, ?_, ?_, ?_, ?_⟩
          · intro ha
            have hp := ha_none ha
            rw [Prod.mk.injEq] at hp
            exact ⟨hp.1, hp.2⟩
          · intro a ha
            obtain ⟨hr, hh, hp⟩ := ha_some a ha
            rw [Prod.mk.injEq] at hp
            exact ⟨hr, hh, hp.1, hp.2⟩
          · intro hc
            have hp := hc_none hc
            rw [Prod.mk.injEq] at hp
            exact ⟨hp.1, hp.2⟩
          · intro c hc
            obtain ⟨h1, h2, h3⟩ := hc_some c hc
            exact ⟨h1, h2, h3⟩

theorem item_matches_of_parse_day (year : Int) (cid : String) (td : DayCell)
    (it : Item) (h : parse_day year cid td = .ok it) :
    ItemMatchesCell it td := by
  obtain ⟨_, _, hanone, hasome, hcnone, hcsome⟩ := parse_day_ok year cid td it h
  refine ⟨?_, ?_, ?_, ?_, ?_, ?_⟩
  · cases ha : td.authorLink with
    | none => obtain ⟨h1, h2⟩ := hanone ha; simp [h1]
    | some a => obtain ⟨hr, _, h1, h2⟩ := hasome a ha; simp [h1]
  · cases ha : td.authorLink with
    | none => obtain ⟨h1, h2⟩ := hanone ha; simp [h2]
    | some a => obtain ⟨hr, _, h1, h2⟩ := hasome a ha; simp [h2]
  · intro a ha
    obtain ⟨hr, _, h1, _⟩ := hasome a ha
    exact h1
  · cases hc : td.comment with
    | none => obtain ⟨h1, h2⟩ := hcnone hc; simp [h1]
    | some c => obtain ⟨h1, _, _⟩ := hcsome c hc; simp [h1]
  · cases hc : td.comment with
    | none =>
      obtain ⟨h1, h2⟩ := hcnone hc
      simp [h2]
    | some c =>
      obtain ⟨h1, h2, h3⟩ := hcsome c hc
      cases hl : c.link with
      | none =>
        have h4 := h2 hl
        simp only [h4, Option.isSome_none, Bool.false_eq_true, false_iff]
        rintro ⟨c2, hc2, hl2⟩
        injection hc2 with he
        subst he
        rw [hl] at hl2
        simp at hl2
      | some a =>
        obtain ⟨hr, _, h4⟩ := h3 a hl
        simp only [h4, Option.isSome_some, true_iff]
        exact ⟨c, rfl, by simp [hl]⟩
  · intro c hc hl
    obtain ⟨h1, h2, _⟩ := hcsome c hc
    exact ⟨h1, h2 hl⟩

/-- Claim C6. If the Detail Parser succeeds on a grid of `M` day cells, it
returns exactly `M` `Item`s in grid order, and the `i`-th item matches the
`i`-th cell: author fields non-null iff the cell has an author link (name
trimmed, both null together otherwise), title non-null iff the comment
block is present, and item URL non-null iff the comment block contains a
link (text without a link gives a non-null title and a null URL). -/
theorem parse_calendar_items_spec (year : Int) (cid : String) :
    ∀ (cells : List DayCell) (items : List Item),
      parse_calendar_items year cid cells = .ok items →
      items.length = cells.length ∧
      ∀ (i : Nat) (hi : i < items.length) (hc : i < cells.length),
        ItemMatchesCell (items.get ⟨i, hi⟩) (cells.get ⟨i, hc⟩) := by
  intro cells
  induction cells with
  | nil =>
    intro items h
    simp only [parse_calendar_items] at h
    injection h with h2
    subst h2
    exact ⟨rfl, fun i hi hc => absurd hi (by simp)⟩
  | cons td tds ih =>
    intro items h
    cases hpd : parse_day year cid td with
    | error e =>
      simp only [parse_calendar_items, hpd] at h
      exact Except.noConfusion h
    | ok it =>
      cases hrest : parse_calendar_items year cid tds with
      | error e =>
        simp only [parse_calendar_items, hpd, hrest] at h
        exact Except.noConfusion h
      | ok rest =>
        simp only [parse_calendar_items, hpd, hrest] at h
        injection h with h2
        subst h2
        obtain ⟨hlen, hidx⟩ := ih rest hrest
        refine ⟨by simp [hlen], ?_⟩
        intro i hi hc
        cases i with
        | zero => exact item_matches_of_parse_day year cid td it hpd
        | succ j =>
          exact hidx j (Nat.lt_of_succ_lt_succ hi) (Nat.lt_of_succ_lt_succ hc)

/-- Witness for C6 on three concrete cells covering all branches. -/
theorem parse_calendar_items_spec_witness :
    parse_calendar_items 2023 "c1" c6_cells = .ok c6_items ∧
    (c6_items.length = c6_cells.length ∧
      ∀ (i : Nat) (hi : i < c6_items.length) (hc : i < c6_cells.length),
        ItemMatchesCell (c6_items.get ⟨i, hi⟩) (c6_cells.get ⟨i, hc⟩)) :=
  ⟨by rfl, parse_calendar_items_spec 2023 "c1" c6_cells c6_items (by rfl)⟩

/-! ## Detail page statistics -/

theorem read_stat_ok_iff (soup : Doc) (i : Nat) (n : Int) :
    read_stat soup i = .ok n ↔ (soup.stats[i]?).bind str_to_int = some n := by
  cases h : soup.stats[i]? with
  | none => simp [read_stat, h]
  | some t => cases h2 : str_to_int t <;> simp [read_stat, h, h2]

/-- Inversion of one successful detail-page crawl. -/
theorem crawl_calendar_ok (w : World) (cnt : Nat) (year : Int) (cid : String)
    (cal : Calendar) (items : List Item)
    (h : (crawl_calendar w cnt year cid).result = .ok (cal, items)) :
    (w (calendar_url year cid)).status_code = 200 ∧
    cal.year = year ∧ cal.calendar_id = cid ∧
    cal.url = calendar_url year cid ∧
    (w (calendar_url year cid)).content.h1 = some cal.title ∧
    (w (calendar_url year cid)).content.infoLink = some cal.category ∧
    read_stat (w (calendar_url year cid)).content 0
      = .ok cal.participants_count ∧
    read_stat (w (calendar_url year cid)).content 1 = .ok cal.likes_count ∧
    read_stat (w (calendar_url year cid)).content 2
      = .ok cal.subscribers_count ∧
    parse_calendar_items year cid (w (calendar_url year cid)).content.days
      = .ok items := by
  rcases eq_or_ne (w (calendar_url year cid)).status_code 200 with h200 | h200
  · simp only [crawl_calendar, get_page_ok _ _ _ h200] at h
    cases hh1 : (w (calendar_url year cid)).content.h1 with
    | none => simp only [hh1] at h; exact Except.noConfusion h
    | some title =>
      simp only [hh1] at h
      cases hil : (w (calendar_url year cid)).content.infoLink with
      | none => simp only [hil] at h; exact Except.noConfusion h
      | some category =>
        simp only [hil] at h
        cases hs0 : read_stat (w (calendar_url year cid)).content 0 with
        | error e => simp only [hs0] at h; exact Except.noConfusion h
        | ok p =>
          simp only [hs0] at h
          cases hs1 : read_stat (w (calendar_url year cid)).content 1 with
          | error e => simp only [hs1] at h; exact Except.noConfusion h
          | ok l =>
            simp only [hs1] at h
            cases hs2 : read_stat (w (calendar_url year cid)).content 2 with
            | error e => simp only [hs2] at h; exact Except.noConfusion h
            | ok s =>
              simp only [hs2] at h
              cases hits : parse_calendar_items year cid
                  (w (calendar_url year cid)).content.days with
              | error e => simp only [hits] at h; exact Except.noConfusion h
              | ok its =>
                simp only [hits] at h
                injection h with h2
                rw [Prod.mk.injEq] at h2
                obtain ⟨hcal, hitems⟩ := h2
                subst hcal
                subst hitems
                exact ⟨h200, rfl, rfl, rfl, rfl, rfl, rfl, rfl, rfl, rfl⟩
  · simp only [crawl_calendar, get_page_err _ _ _ h200] at h
    exact Except.noConfusion h

/-- Claim C9. On every successful detail crawl, the three numeric
statistics of the returned `Calendar` are the integers parsed positionally
from the page's stat elements in the fixed order participants (index 0),
likes (index 1), subscribers (index 2). -/
theorem stats_positional (w : World) (cnt : Nat) (year : Int) (cid : String)
    (cal : Calendar) (items : List Item)
    (h : (crawl_calendar w cnt year cid).result = .ok (cal, items)) :
    ((w (calendar_url year cid)).content.stats[0]?).bind str_to_int
      = some cal.participants_count ∧
    ((w (calendar_url year cid)).content.stats[1]?).bind str_to_int
      = some cal.likes_count ∧
    ((w (calendar_url year cid)).content.stats[2]?).bind str_to_int
      = some cal.subscribers_count := by
  obtain ⟨_, _, _, _, _, _, hs0, hs1, hs2, _⟩ :=
    crawl_calendar_ok w cnt year cid cal items h
  exact ⟨(read_stat_ok_iff _ _ _).mp hs0, (read_stat_ok_iff _ _ _).mp hs1,
    (read_stat_ok_iff _ _ _).mp hs2⟩

/-- Witness for C9 on the concrete detail page of `w2`. -/
theorem stats_positional_witness :
    (crawl_calendar w2 0 2023 "c1").result
      = .ok (⟨2023, "c1", "Cal One",
          "https://qiita.com/advent-calendar/2023/c1", "Programming",
          10, 20, 30⟩, []) ∧
    (((w2 (calendar_url 2023 "c1")).content.stats[0]?).bind str_to_int
        = some 10 ∧
      ((w2 (calendar_url 2023 "c1")).content.stats[1]?).bind str_to_int
        = some 20 ∧
      ((w2 (calendar_url 2023 "c1")).content.stats[2]?).bind str_to_int
        = some 30) :=
  ⟨by rfl,
    stats_positional w2 0 2023 "c1"
      ⟨2023, "c1", "Cal One", "https://qiita.com/advent-calendar/2023/c1",
        "Programming", 10, 20, 30⟩ [] (by rfl)⟩

/-! ## Raw item hrefs and the liker host filter -/

/-- Claim C10. The Detail Parser stores the comment link's href verbatim
as the item URL (while the author URL is resolved against the site base
via `urljoin_site`); the liker filter `is_qiita_item` demands that the URL
string literally starts with the site base URL, so any item whose stored
href does not (every relative or scheme-different href) never passes it —
concretely, a relative `/items/abc` href fails the filter even though its
resolution against the base would pass. -/
theorem item_url_raw_href :
    (∀ (year : Int) (cid : String) (td : DayCell) (it : Item),
      parse_day year cid td = .ok it →
      (∀ c a hr, td.comment = some c → c.link = some a → a.href = some hr →
        it.url = some hr) ∧
      (∀ a hr, td.authorLink = some a → a.href = some hr →
        it.user_url = some (urljoin_site hr))) ∧
    (∀ u : String, is_qiita_item (some u) = true → startswith u site = true) ∧
    (∀ u : String, startswith u site = false →
      is_qiita_item (some u) = false) ∧
    (is_qiita_item (some "/items/abc") = false ∧
      urljoin_site "/items/abc" = "https://qiita.com/items/abc" ∧
      is_qiita_item (some (urljoin_site "/items/abc")) = true) := by
  refine ⟨?_, ?_, ?_, by decide, by decide, by decide⟩
  · intro year cid td it h
    obtain ⟨_, _, _, hasome, _, hcsome⟩ := parse_day_ok year cid td it h
    constructor
    · intro c a hr hcm hl hh
      obtain ⟨hr2, hh2, hu⟩ := (hcsome c hcm).2.2 a hl
      rw [hh] at hh2
      injection hh2 with he
      subst he
      exact hu
    · intro a hr ha hh
      obtain ⟨hr2, hh2, _, h2⟩ := hasome a ha
      rw [hh] at hh2
      injection hh2 with he
      subst he
      exact h2
  · intro u h
    rw [is_qiita_item, Bool.and_eq_true] at h
    exact h.1
  · intro u h
    simp [is_qiita_item, h]

/-- Witness for C10 on a concrete cell with a relative comment href. -/
theorem item_url_raw_href_witness :
    parse_day 2023 "c" c10_cell = .ok c10_item ∧
    c10_item.url = some "/items/rel" ∧
    c10_item.user_url = some (urljoin_site "/bob") ∧
    is_qiita_item (some "/items/rel") = false :=
  ⟨by rfl,
    (item_url_raw_href.1 2023 "c" c10_cell c10_item (by rfl)).1
      ⟨"T", some ⟨"t", some "/items/rel"⟩⟩ ⟨"t", some "/items/rel"⟩
      "/items/rel" rfl rfl rfl,
    (item_url_raw_href.1 2023 "c" c10_cell c10_item (by rfl)).2
      ⟨"bob", some "/bob"⟩ "/bob" rfl rfl,
    item_url_raw_href.2.2.1 "/items/rel" (by decide)⟩

/-! ## Trailing path segments -/

theorem takeWhile_all_append {α : Type} (p : α → Bool) :
    ∀ (l₁ l₂ : List α), (∀ a ∈ l₁, p a = true) →
      (l₁ ++ l₂).takeWhile p = l₁ ++ l₂.takeWhile p := by
  intro l₁
  induction l₁ with
  | nil => intro l₂ _; simp
  | cons a t ih =>
    intro l₂ h
    have ha := h a (List.mem_cons_self a t)
    simp [List.takeWhile_cons, ha,
      ih l₂ (fun x hx => h x (List.mem_cons_of_mem a hx))]

theorem lastPathSegment_no_slash (url : String) :
    '/' ∉ (lastPathSegment url).data := by
  intro hm
  have hm2 : '/' ∈ ((url.data.reverse.dropWhile (fun c => c == '/')).takeWhile
      (fun c => c != '/')) := by
    have he : (lastPathSegment url).data
        = ((url.data.reverse.dropWhile (fun c => c == '/')).takeWhile
            (fun c => c != '/')).reverse := rfl
    rw [he, List.mem_reverse] at hm
    exact hm
  have := List.mem_takeWhile_imp hm2
  simp at this

theorem lastPathSegment_append (pre cid : String) (h1 : cid.data ≠ [])
    (h2 : '/' ∉ cid.data) :
    lastPathSegment (pre ++ "/" ++ cid) = cid := by
  have hdata : (pre ++ "/" ++ cid).data = pre.data ++ '/' :: cid.data := by
    rw [String.data_append, String.data_append,
      show ("/" : String).data = ['/'] from rfl, List.append_assoc]
    rfl
  unfold lastPathSegment
  rw [hdata]
  obtain ⟨c, t, hct⟩ : ∃ c t, cid.data.reverse = c :: t := by
    cases hr : cid.data.reverse with
    | nil =>
      exfalso
      apply h1
      have := congrArg List.reverse hr
      simpa using this
    | cons c t => exact ⟨c, t, rfl⟩
  have hmem : ∀ x ∈ c :: t, (x != '/') = true := by
    intro x hx
    have hxm : x ∈ cid.data := by
      rw [← List.mem_reverse, hct]
      exact hx
    have hne : x ≠ '/' := fun he => h2 (he ▸ hxm)
    simpa using hne
  have hc' : (c == '/') = false := by
    have := hmem c (List.mem_cons_self c t)
    simpa using this
  rw [List.reverse_append, List.reverse_cons, hct, List.append_assoc]
  simp only [List.singleton_append, List.cons_append]
  rw [List.dropWhile_cons, hc']
  simp only [Bool.false_eq_true, if_false, List.nil_append]
  rw [show c :: (t ++ '/' :: pre.data.reverse)
      = (c :: t) ++ ('/' :: pre.data.reverse) from by simp]
  rw [takeWhile_all_append _ (c :: t) _ hmem]
  rw [List.takeWhile_cons]
  simp only [bne_self_eq_false, Bool.false_eq_true, if_false, List.append_nil]
  rw [← hct, List.reverse_reverse]

theorem parse_listing_mem :
    ∀ (rows : List ListingRow) (r : CalRef), r ∈ (parse_listing rows).1 →
      r.calendar_id = lastPathSegment r.url ∧ '/' ∉ r.calendar_id.data := by
  intro rows
  induction rows with
  | nil => intro r hr; simp [parse_listing] at hr
  | cons row rs ih =>
    intro r hr
    cases ht : row.titleLink with
    | none => simp only [parse_listing, ht] at hr; simp at hr
    | some a =>
      cases hh : a.href with
      | none => simp only [parse_listing, ht, hh] at hr; simp at hr
      | some h =>
        simp only [parse_listing, ht, hh] at hr
        rcases List.mem_cons.mp hr with he | hm
        · subst he
          exact ⟨rfl, lastPathSegment_no_slash _⟩
        · exact ih r hm

theorem crawl_calendars_pages_mem (w : World) :
    ∀ (fuel cnt : Nat) (url : String) (r : CalRef),
      r ∈ (crawl_calendars_pages w fuel cnt url).result.1 →
      r.calendar_id = lastPathSegment r.url ∧ '/' ∉ r.calendar_id.data := by
  intro fuel
  induction fuel with
  | zero => intro cnt url r hr; simp [crawl_calendars_pages] at hr
  | succ f ih =>
    intro cnt url r hr
    rcases eq_or_ne (w url).status_code 200 with h | h
    · simp only [crawl_calendars_pages, get_page_ok w cnt url h] at hr
      rcases hpl : parse_listing (w url).content.listRows with ⟨refs, e⟩
      cases e with
      | some e =>
        simp only [hpl] at hr
        exact parse_listing_mem _ r (by rw [hpl]; exact hr)
      | none =>
        cases hn : (w url).content.nextLink with
        | none =>
          simp only [hpl, hn] at hr
          exact parse_listing_mem _ r (by rw [hpl]; exact hr)
        | some a =>
          cases hh : a.href with
          | none =>
            simp only [hpl, hn, hh] at hr
            exact parse_listing_mem _ r (by rw [hpl]; exact hr)
          | some nh =>
            simp only [hpl, hn, hh] at hr
            rcases List.mem_append.mp hr with hm | hm
            · exact parse_listing_mem _ r (by rw [hpl]; exact hm)
            · exact ih _ _ r hm
    · simp only [crawl_calendars_pages, get_page_err w cnt url h] at hr
      simp at hr

/-- Claim C8. Every `CalRef` the listing enumeration yields has its
`calendar_id` equal to the trailing path segment of its URL (and free of
`/`, so it is a single segment); and every `Calendar` a successful detail
crawl returns for a single-segment nonempty id carries
`url = calendar_url year id`, so its `calendar_id` again equals the
trailing path segment of its `url`. -/
theorem calendar_id_trailing_segment :
    (∀ (w : World) (fuel cnt : Nat) (year : Int) (cat : Option String)
        (r : CalRef), r ∈ (crawl_calendars w fuel cnt year cat).result.1 →
      r.calendar_id = lastPathSegment r.url ∧ '/' ∉ r.calendar_id.data) ∧
    (∀ (w : World) (cnt : Nat) (year : Int) (cid : String) (cal : Calendar)
        (items : List Item), cid ≠ "" → '/' ∉ cid.data →
      (crawl_calendar w cnt year cid).result = .ok (cal, items) →
      cal.calendar_id = cid ∧ cal.url = calendar_url year cid ∧
      cal.calendar_id = lastPathSegment cal.url) := by
  constructor
  · intro w fuel cnt year cat r hr
    exact crawl_calendars_pages_mem w fuel cnt (listing_url year cat) r hr
  · intro w cnt year cid cal items hne hslash h
    obtain ⟨_, _, hid, hurl, _⟩ := crawl_calendar_ok w cnt year cid cal items h
    refine ⟨hid, hurl, ?_⟩
    rw [hid, hurl]
    have h1 : cid.data ≠ [] := by
      intro hd
      apply hne
      apply String.ext
      rw [hd]
    unfold calendar_url
    exact (lastPathSegment_append
      ("https://qiita.com/advent-calendar/" ++ toString year) cid h1 hslash).symm

/-- Witness for C8 on the concrete listing and detail crawl of `w2`. -/
theorem calendar_id_trailing_segment_witness :
    ((⟨"c1", "Cal One", "https://qiita.com/advent-calendar/2023/c1"⟩ : CalRef)
        ∈ (crawl_calendars w2 5 0 2023 none).result.1) ∧
    ((⟨"c1", "Cal One", "https://qiita.com/advent-calendar/2023/c1"⟩ :
        CalRef).calendar_id
      = lastPathSegment
          (⟨"c1", "Cal One", "https://qiita.com/advent-calendar/2023/c1"⟩ :
            CalRef).url ∧
      '/' ∉ (⟨"c1", "Cal One",
          "https://qiita.com/advent-calendar/2023/c1"⟩ :
            CalRef).calendar_id.data) ∧
    ("c1" : String) ≠ "" ∧ '/' ∉ ("c1" : String).data ∧
    (crawl_calendar w2 0 2023 "c1").result
      = .ok (⟨2023, "c1", "Cal One",
          "https://qiita.com/advent-calendar/2023/c1", "Programming",
          10, 20, 30⟩, []) ∧
    ((⟨2023, "c1", "Cal One", "https://qiita.com/advent-calendar/2023/c1",
        "Programming", 10, 20, 30⟩ : Calendar).calendar_id = "c1" ∧
      (⟨2023, "c1", "Cal One", "https://qiita.com/advent-calendar/2023/c1",
        "Programming", 10, 20, 30⟩ : Calendar).url = calendar_url 2023 "c1" ∧
      (⟨2023, "c1", "Cal One", "https://qiita.com/advent-calendar/2023/c1",
        "Programming", 10, 20, 30⟩ : Calendar).calendar_id
        = lastPathSegment
            (⟨2023, "c1", "Cal One",
              "https://qiita.com/advent-calendar/2023/c1",
              "Programming", 10, 20, 30⟩ : Calendar).url) :=
  ⟨by decide,
    calendar_id_trailing_segment.1 w2 5 0 2023 none
      ⟨"c1", "Cal One", "https://qiita.com/advent-calendar/2023/c1"⟩
      (by decide),
    by decide, by decide, by rfl,
    calendar_id_trailing_segment.2 w2 0 2023 "c1"
      ⟨2023, "c1", "Cal One", "https://qiita.com/advent-calendar/2023/c1",
        "Programming", 10, 20, 30⟩ [] (by decide) (by decide) (by rfl)⟩

/-! ## Liker fan-out failure isolation -/

theorem crawl_likers_pages_shift (w : World) (year : Int) (cid : String)
    (date : Int) :
    ∀ fuel cnt url,
      crawl_likers_pages w year cid date fuel cnt url
        = ⟨cnt + (crawl_likers_pages w year cid date fuel 0 url).count,
           (crawl_likers_pages w year cid date fuel 0 url).trace,
           (crawl_likers_pages w year cid date fuel 0 url).result⟩ := by
  intro fuel
  induction fuel with
  | zero => intro cnt url; simp [crawl_likers_pages]
  | succ f ih =>
    intro cnt url
    rcases eq_or_ne (w url).status_code 200 with h | h
    · simp only [crawl_likers_pages, get_page_ok w cnt url h,
        get_page_ok w 0 url h]
      rcases hpl : parse_likers_page year cid date (w url).content.users
        with ⟨ls, e⟩
      cases e with
      | some e => simp
      | none =>
        cases hn : (w url).content.nextLink with
        | none => simp
        | some a =>
          cases hh : a.href with
          | none => simp [hh]
          | some nh =>
            simp only [hh]
            rw [ih (cnt + 1) (urljoin_site nh), ih (0 + 1) (urljoin_site nh)]
            simp only [FetchOut.mk.injEq, List.singleton_append,
              Prod.mk.injEq, and_true, true_and]
            omega
    · simp [crawl_likers_pages, get_page_err w cnt url h,
        get_page_err w 0 url h]

theorem crawl_likers_item_shift (w : World) (fuel : Nat) (year : Int)
    (cid : String) (cnt : Nat) (it : Item) :
    crawl_likers_item w fuel year cid cnt it
      = ⟨cnt + (crawl_likers_item w fuel year cid 0 it).count,
         (crawl_likers_item w fuel year cid 0 it).trace,
         (crawl_likers_item w fuel year cid 0 it).result⟩ := by
  unfold crawl_likers_item
  split
  · exact crawl_likers_pages_shift w year cid it.date fuel cnt _
  · simp

theorem crawl_likers_items_result (w : World) (fuel : Nat) (year : Int)
    (cid : String) :
    ∀ (items : List Item) (cnt : Nat),
      (crawl_likers_items w fuel year cid cnt items).result
        = ((items.map (fun it =>
              (crawl_likers_item w fuel year cid 0 it).result.1)).flatten,
           items.filterMap (fun it =>
             ((crawl_likers_item w fuel year cid 0 it).result.2).map
               (fun e => (it, e)))) := by
  intro items
  induction items with
  | nil => intro cnt; simp [crawl_likers_items]
  | cons it its ih =>
    intro cnt
    simp only [crawl_likers_items]
    rw [crawl_likers_item_shift w fuel year cid cnt it]
    rw [ih]
    cases hc2 : (crawl_likers_item w fuel year cid 0 it).result.2 with
    | none => simp [List.flatten, List.filterMap_cons, hc2]
    | some e => simp [List.flatten, List.filterMap_cons, hc2]

/-- Claim C1 as amended.  Per-item failure isolation of the liker fan-out:
after a successful detail crawl, `crawl_likers` always ends normally (the
value is `.ok`), and the emitted likers are exactly the concatenation of
each item's own standalone emission — one item's caught exception never
perturbs what the other items produce — while each caught exception is
recorded against exactly its item.  Within a failing item the walk stops
at the exception, keeping only the likers already yielded; in particular
if the very first liker-page fetch answers non-200, that item contributes
zero likers. -/
theorem crawl_likers_failure_isolation (w : World) (fuel cnt : Nat)
    (year : Int) (cid : String) (cal : Calendar) (items : List Item)
    (hcal : (crawl_calendar w cnt year cid).result = .ok (cal, items)) :
    (crawl_likers w fuel cnt year cid).result
      = .ok ((items.map (fun it =>
            (crawl_likers_item w fuel year cid 0 it).result.1)).flatten,
          items.filterMap (fun it =>
            ((crawl_likers_item w fuel year cid 0 it).result.2).map
              (fun e => (it, e)))) ∧
    (∀ (f c2 : Nat) (it : Item) (u : String), it.url = some u →
      is_qiita_item it.url = true →
      (w (u ++ "/likers")).status_code ≠ 200 →
      (crawl_likers_item w (f + 1) year cid c2 it).result
        = ([], some (.http (w (u ++ "/likers")).status_code))) := by
  constructor
  · simp only [crawl_likers, hcal]
    rw [crawl_likers_items_result]
  · intro f c2 it u hu hq h
    rw [hu] at hq
    simp only [crawl_likers_item, hu, Option.getD_some, hq, if_true]
    simp only [crawl_likers_pages, get_page_err w c2 (u ++ "/likers") h]

/-- Claim C1, counterexample to the claim as stated: in `w1`, crawling the
likers of the date-1 item raises `HttpException 500` on its second liker
page (the exception is recorded as caught for that item), yet the
operation's output contains one liker for that item — the likers already
yielded from its first page are emitted, not zero. -/
theorem crawl_likers_zero_emission_counterexample :
    (crawl_likers w1 10 0 2023 "c").result
      = .ok ([⟨2023, "c", 1, "u1", "https://qiita.com/u1"⟩,
              ⟨2023, "c", 2, "u2", "https://qiita.com/u2"⟩],
             [(⟨2023, "c", 1, none, none, some "A",
                 some "https://qiita.com/items/x"⟩, .http 500)]) ∧
    ((crawl_likers w1 10 0 2023 "c").result.toOption.map
        (fun p => p.1.filter (fun l => l.date == 1)))
      = some [⟨2023, "c", 1, "u1", "https://qiita.com/u1"⟩] :=
  ⟨by rfl, by rfl⟩

/-- Witness for C1's amended theorem on the concrete world `w1`. -/
theorem crawl_likers_failure_isolation_witness :
    (crawl_calendar w1 0 2023 "c").result
      = .ok (⟨2023, "c", "Test Calendar",
          "https://qiita.com/advent-calendar/2023/c", "Programming",
          1, 2, 3⟩,
        [⟨2023, "c", 1, none, none, some "A",
            some "https://qiita.com/items/x"⟩,
         ⟨2023, "c", 2, none, none, some "B",
            some "https://qiita.com/items/y"⟩]) ∧
    ((crawl_likers w1 10 0 2023 "c").result
      = .ok (([⟨2023, "c", 1, none, none, some "A",
                some "https://qiita.com/items/x"⟩,
              (⟨2023, "c", 2, none, none, some "B",
                some "https://qiita.com/items/y"⟩ : Item)].map (fun it =>
              (crawl_likers_item w1 10 2023 "c" 0 it).result.1)).flatten,
          [⟨2023, "c", 1, none, none, some "A",
              some "https://qiita.com/items/x"⟩,
            (⟨2023, "c", 2, none, none, some "B",
              some "https://qiita.com/items/y"⟩ : Item)].filterMap (fun it =>
            ((crawl_likers_item w1 10 2023 "c" 0 it).result.2).map
              (fun e => (it, e)))) ∧
      (∀ (f c2 : Nat) (it : Item) (u : String), it.url = some u →
        is_qiita_item it.url = true →
        (w1 (u ++ "/likers")).status_code ≠ 200 →
        (crawl_likers_item w1 (f + 1) 2023 "c" c2 it).result
          = ([], some (.http (w1 (u ++ "/likers")).status_code)))) :=
  ⟨by rfl,
    crawl_likers_failure_isolation w1 10 0 2023 "c"
      ⟨2023, "c", "Test Calendar",
        "https://qiita.com/advent-calendar/2023/c", "Programming", 1, 2, 3⟩
      [⟨2023, "c", 1, none, none, some "A",
          some "https://qiita.com/items/x"⟩,
        ⟨2023, "c", 2, none, none, some "B",
          some "https://qiita.com/items/y"⟩] (by rfl)⟩

/-! ## The crawlCalendars operation -/

theorem crawl_calendars_pages_eq_walk (w : World) :
    ∀ (fuel cnt : Nat) (url : String),
      (iterate_pagination w fuel cnt url).result.2 = none →
      (∀ d ∈ (iterate_pagination w fuel cnt url).result.1,
        (parse_listing d.listRows).2 = none) →
      crawl_calendars_pages w fuel cnt url
        = ⟨(iterate_pagination w fuel cnt url).count,
           (iterate_pagination w fuel cnt url).trace,
           (((iterate_pagination w fuel cnt url).result.1.map
               (fun d => (parse_listing d.listRows).1)).flatten, none)⟩ := by
  intro fuel
  induction fuel with
  | zero => intro cnt url hdone _; simp [iterate_pagination] at hdone
  | succ f ih =>
    intro cnt url hdone hrows
    rcases eq_or_ne (w url).status_code 200 with h | h
    · simp only [iterate_pagination, get_page_ok w cnt url h]
        at hdone hrows ⊢
      cases hn : (w url).content.nextLink with
      | none =>
        simp only [hn] at hdone hrows ⊢
        simp only [List.mem_singleton, forall_eq] at hrows
        rcases hpl : parse_listing (w url).content.listRows with ⟨refs, e⟩
        rw [hpl] at hrows
        cases e with
        | some e2 => simp at hrows
        | none =>
          simp only [crawl_calendars_pages, get_page_ok w cnt url h, hpl, hn]
          simp [hpl]
      | some a =>
        cases hh : a.href with
        | none => simp only [hn, hh] at hdone; simp at hdone
        | some nh =>
          simp only [hn, hh] at hdone hrows ⊢
          have hmem0 := hrows (w url).content (List.mem_cons_self _ _)
          have hrec := ih (cnt + 1) (urljoin_site nh) hdone
            (fun d hd2 => hrows d (List.mem_cons_of_mem _ hd2))
          simp only [crawl_calendars_pages, get_page_ok w cnt url h, hn, hh]
          rcases hpl : parse_listing (w url).content.listRows with ⟨refs, e⟩
          rw [hpl] at hmem0
          cases e with
          | some e2 => simp at hmem0
          | none =>
            simp only [hpl]
            rw [hrec]
            simp [hpl]
    · simp only [iterate_pagination, get_page_err w cnt url h] at hdone
      simp at hdone

theorem crawl_details_result_iff (w : World) (year : Int) :
    ∀ (refs : List CalRef) (cnt : Nat) (l : List (Calendar × List Item)),
      (crawl_details w year cnt refs).result = .ok l ↔
      List.Forall₂ (fun pr r =>
        (crawl_calendar w 0 year r.calendar_id).result = .ok pr) l refs := by
  intro refs
  induction refs with
  | nil =>
    intro cnt l
    simp only [crawl_details]
    constructor
    · intro h
      injection h with h2
      subst h2
      exact List.Forall₂.nil
    · intro h
      cases h
      rfl
  | cons r rs ih =>
    intro cnt l
    simp only [crawl_details]
    have hres : (crawl_calendar w cnt year r.calendar_id).result
        = (crawl_calendar w 0 year r.calendar_id).result :=
      (crawl_calendar_count w cnt year r.calendar_id).2.2
    cases hc : (crawl_calendar w 0 year r.calendar_id).result with
    | error e =>
      simp only [hres, hc]
      constructor
      · intro h
        exact Except.noConfusion h
      · intro h
        cases h with
        | cons hpr htail =>
          rw [hc] at hpr
          exact Except.noConfusion hpr
    | ok pr =>
      simp only [hres, hc]
      cases hrest : (crawl_details w year
          ((crawl_calendar w cnt year r.calendar_id).count) rs).result with
      | error e2 =>
        constructor
        · intro h
          simp [Except.map] at h
        · intro h
          cases h with
          | cons hpr htail =>
            have h2 := (ih ((crawl_calendar w cnt year
              r.calendar_id).count) _).mpr htail
            rw [hrest] at h2
            exact Except.noConfusion h2
      | ok l2 =>
        constructor
        · intro h
          simp only [Except.map] at h
          injection h with h2
          subst h2
          exact List.Forall₂.cons hc ((ih _ _).mp hrest)
        · intro h
          cases h with
          | cons hpr htail =>
            rw [hc] at hpr
            injection hpr with he
            subst he
            have h2 := (ih ((crawl_calendar w cnt year
              r.calendar_id).count) _).mpr htail
            rw [hrest] at h2
            injection h2 with h3
            subst h3
            simp [Except.map]

theorem crawl_details_trace_ok (w : World) (year : Int) :
    ∀ (refs : List CalRef) (cnt : Nat) (l : List (Calendar × List Item)),
      (crawl_details w year cnt refs).result = .ok l →
      (crawl_details w year cnt refs).trace
        = refs.map (fun r => calendar_url year r.calendar_id) := by
  intro refs
  induction refs with
  | nil => intro cnt l _; simp [crawl_details]
  | cons r rs ih =>
    intro cnt l h
    simp only [crawl_details] at h ⊢
    have hres : (crawl_calendar w cnt year r.calendar_id).result
        = (crawl_calendar w 0 year r.calendar_id).result :=
      (crawl_calendar_count w cnt year r.calendar_id).2.2
    have htr := (crawl_calendar_count w cnt year r.calendar_id).2.1
    cases hc : (crawl_calendar w 0 year r.calendar_id).result with
    | error e =>
      simp only [hres, hc] at h
      exact Except.noConfusion h
    | ok pr =>
      simp only [hres, hc] at h ⊢
      cases hrest : (crawl_details w year
          ((crawl_calendar w cnt year r.calendar_id).count) rs).result with
      | error e2 =>
        rw [hrest] at h
        simp [Except.map] at h
      | ok l2 =>
        rw [htr, ih _ l2 hrest]
        simp

/-- Claim C2. Under the stated success conditions, the refs enumeration of
`crawl_calendars` is exactly the Pagination Walker over the year/category
listing URL composed with the Listing Parser on each walked page (same
fetches, same counter, refs in page order); and the full `crawlCalendars`
operation succeeds with `l` exactly when each enumerated ref's single
detail crawl (`crawl_calendar`, one fetch plus the Detail Parser) succeeds
with the corresponding pair, in order — in which case the operation's
fetches are the walker's followed by exactly one detail-page URL per ref. -/
theorem crawl_calendars_op_spec (w : World) (fuel cnt : Nat) (year : Int)
    (cat : Option String)
    (hdone : (iterate_pagination w fuel cnt (listing_url year cat)).result.2
      = none)
    (hrows : ∀ d ∈ (iterate_pagination w fuel cnt
        (listing_url year cat)).result.1,
      (parse_listing d.listRows).2 = none) :
    (crawl_calendars w fuel cnt year cat).result
      = ((((iterate_pagination w fuel cnt
            (listing_url year cat)).result.1).map
          (fun d => (parse_listing d.listRows).1)).flatten, none) ∧
    (crawl_calendars w fuel cnt year cat).trace
      = (iterate_pagination w fuel cnt (listing_url year cat)).trace ∧
    (∀ l, (crawl_calendars_op w fuel cnt year cat).result = .ok l ↔
      List.Forall₂ (fun pr r =>
          (crawl_calendar w 0 year r.calendar_id).result = .ok pr)
        l ((((iterate_pagination w fuel cnt
              (listing_url year cat)).result.1).map
            (fun d => (parse_listing d.listRows).1)).flatten)) ∧
    (∀ l, (crawl_calendars_op w fuel cnt year cat).result = .ok l →
      (crawl_calendars_op w fuel cnt year cat).trace
        = (iterate_pagination w fuel cnt (listing_url year cat)).trace
          ++ ((((iterate_pagination w fuel cnt
                (listing_url year cat)).result.1).map
              (fun d => (parse_listing d.listRows).1)).flatten).map
              (fun r => calendar_url year r.calendar_id)) := by
  have hE := crawl_calendars_pages_eq_walk w fuel cnt (listing_url year cat)
    hdone hrows
  have h1 : crawl_calendars w fuel cnt year cat
      = crawl_calendars_pages w fuel cnt (listing_url year cat) := rfl
  refine ⟨?_, ?_, ?_, ?_⟩
  · rw [h1, hE]
  · rw [h1, hE]
  · intro l
    simp only [crawl_calendars_op, h1, hE]
    exact crawl_details_result_iff w year _ _ l
  · intro l hl
    simp only [crawl_calendars_op, h1, hE] at hl ⊢
    rw [crawl_details_trace_ok w year _ _ l hl]

/-- Witness for C2 on the concrete world `w2` (one listing page with one
calendar, one detail page). -/
theorem crawl_calendars_op_spec_witness :
    (iterate_pagination w2 5 0 (listing_url 2023 none)).result.2 = none ∧
    (∀ d ∈ (iterate_pagination w2 5 0 (listing_url 2023 none)).result.1,
      (parse_listing d.listRows).2 = none) ∧
    ((crawl_calendars w2 5 0 2023 none).result
      = ((((iterate_pagination w2 5 0 (listing_url 2023 none)).result.1).map
          (fun d => (parse_listing d.listRows).1)).flatten, none) ∧
    (crawl_calendars w2 5 0 2023 none).trace
      = (iterate_pagination w2 5 0 (listing_url 2023 none)).trace ∧
    (∀ l, (crawl_calendars_op w2 5 0 2023 none).result = .ok l ↔
      List.Forall₂ (fun pr r =>
          (crawl_calendar w2 0 2023 r.calendar_id).result = .ok pr)
        l ((((iterate_pagination w2 5 0 (listing_url 2023 none)).result.1).map
            (fun d => (parse_listing d.listRows).1)).flatten)) ∧
    (∀ l, (crawl_calendars_op w2 5 0 2023 none).result = .ok l →
      (crawl_calendars_op w2 5 0 2023 none).trace
        = (iterate_pagination w2 5 0 (listing_url 2023 none)).trace
          ++ ((((iterate_pagination w2 5 0
                (listing_url 2023 none)).result.1).map
              (fun d => (parse_listing d.listRows).1)).flatten).map
              (fun r => calendar_url 2023 r.calendar_id))) :=
  ⟨by rfl, by decide, crawl_calendars_op_spec w2 5 0 2023 none (by rfl) (by decide)⟩

end QiitaAdcal
